import Mathlib

/-!
Verification of the abt-analytics aggregation service.

The repository ships a single Go entry point, `backend/cmd/api/main.go`,
which wires configuration, an optional MySQL-backed store, a seeding step,
and a gin router.  The aggregation engine itself (packages
`internal/services`, `internal/repository`, `internal/controllers`,
`internal/models`) is referenced from `main.go` but its code is not part of
the source tree given here; those operations are modelled from the spec
(each such definition carries a doc comment starting `Modelled from the
spec:`).  `seedData`, `setupRouter` and the startup control flow of `main`
are embedded directly from `main.go`.
-/

namespace ABT

/-- Modelled from the spec: the Transaction entity of spec §3
(`internal/models` is not in the source tree).  `amount` is an exact
decimal in minor units (cents), embedded as `Int`; the calendar date is
kept as the `(year, month)` pair that the month bucketing uses. -/
structure Transaction where
  id : Nat
  country : String
  region : String
  product : String
  amount : Int
  quantity : Nat
  year : Nat
  month : Nat
deriving DecidableEq

/-- Modelled from the spec: the error taxonomy of spec §7. -/
inductive AggError where
  | invalidArgument
  | storeUnavailable
deriving DecidableEq

/-- Modelled from the spec: derived report row for `CountryRevenue()`. -/
structure CountryRevenueEntry where
  country : String
  totalRevenue : Int
  transactionCount : Nat
deriving DecidableEq

/-- Modelled from the spec: derived report row for `TopProducts(limit)`. -/
structure TopProductEntry where
  product : String
  totalRevenue : Int
  totalQuantity : Nat
deriving DecidableEq

/-- Modelled from the spec: derived report row for `TopRegions(limit)`. -/
structure TopRegionEntry where
  region : String
  totalRevenue : Int
  transactionCount : Nat
deriving DecidableEq

/-- Modelled from the spec: derived report row for `MonthlySales(year)`. -/
structure MonthlySalesEntry where
  year : Nat
  month : Nat
  totalRevenue : Int
  transactionCount : Nat
deriving DecidableEq

/-- Sum of `amount` over the transactions satisfying `p`. -/
def revenueWhere (p : Transaction → Bool) (ts : List Transaction) : Int :=
  ((ts.filter p).map (fun t => t.amount)).sum

/-- Number of transactions satisfying `p`. -/
def countWhere (p : Transaction → Bool) (ts : List Transaction) : Nat :=
  (ts.filter p).length

/-- Sum of `quantity` over the transactions satisfying `p`. -/
def quantityWhere (p : Transaction → Bool) (ts : List Transaction) : Nat :=
  ((ts.filter p).map (fun t => t.quantity)).sum

/-- Comparator for country-revenue rows: descending by `totalRevenue`,
ties broken by country name ascending (spec §4.1). -/
def crLe (a b : CountryRevenueEntry) : Prop :=
  b.totalRevenue < a.totalRevenue ∨
    (a.totalRevenue = b.totalRevenue ∧ a.country ≤ b.country)

instance : DecidableRel crLe := fun a b => by
  unfold crLe; infer_instance

instance : IsTotal CountryRevenueEntry crLe :=
  ⟨fun a b => by
    unfold crLe
    rcases lt_trichotomy a.totalRevenue b.totalRevenue with h | h | h
    · exact Or.inr (Or.inl h)
    · rcases le_total a.country b.country with hc | hc
      · exact Or.inl (Or.inr ⟨h, hc⟩)
      · exact Or.inr (Or.inr ⟨h.symm, hc⟩)
    · exact Or.inl (Or.inl h)⟩

instance : IsTrans CountryRevenueEntry crLe :=
  ⟨fun a b c hab hbc => by
    unfold crLe at hab hbc ⊢
    rcases hab with h1 | ⟨h1, h1c⟩ <;> rcases hbc with h2 | ⟨h2, h2c⟩
    · exact Or.inl (lt_trans h2 h1)
    · exact Or.inl (h2 ▸ h1)
    · exact Or.inl (by rw [h1]; exact h2)
    · exact Or.inr ⟨h1.trans h2, le_trans h1c h2c⟩⟩

/-- Distinct countries occurring in the data, first occurrences kept. -/
def countries (ts : List Transaction) : List String :=
  (ts.map (fun t => t.country)).dedup

/-- Modelled from the spec: one country-revenue row, `totalRevenue =
sum(amount)` and `transactionCount = count` over the country's group. -/
def mkCountryEntry (ts : List Transaction) (c : String) : CountryRevenueEntry :=
  { country := c
    totalRevenue := revenueWhere (fun t => t.country == c) ts
    transactionCount := countWhere (fun t => t.country == c) ts }

/-- Modelled from the spec: `CountryRevenue()` — group by country, sum and
count, sort descending by revenue with country-name tie break
(`internal/services` is not in the source tree). -/
def countryRevenue (ts : List Transaction) : List CountryRevenueEntry :=
  List.insertionSort crLe ((countries ts).map (mkCountryEntry ts))

theorem map_country_mkCountryEntry (ts : List Transaction) (l : List String) :
    (l.map (mkCountryEntry ts)).map (fun e => e.country) = l := by
  induction l with
  | nil => rfl
  | cons a l ih => simp only [List.map_cons, ih, mkCountryEntry]

theorem countryRevenue_countries_perm (ts : List Transaction) :
    List.Perm ((countryRevenue ts).map (fun e => e.country)) (countries ts) := by
  unfold countryRevenue
  have h := (List.perm_insertionSort crLe
      ((countries ts).map (mkCountryEntry ts))).map (fun e => e.country)
  rwa [map_country_mkCountryEntry] at h

theorem countryRevenue_entries (ts : List Transaction) :
    ∀ e ∈ countryRevenue ts, ∃ c ∈ countries ts, e = mkCountryEntry ts c := by
  intro e he
  unfold countryRevenue at he
  have h1 : e ∈ (countries ts).map (mkCountryEntry ts) :=
    ((List.perm_insertionSort crLe _).mem_iff).mp he
  rcases List.mem_map.mp h1 with ⟨c, hc, rfl⟩
  exact ⟨c, hc, rfl⟩

/-- Comparator for top-product rows: descending by `totalRevenue`, ties
broken by product name ascending (spec §4.1). -/
def tpLe (a b : TopProductEntry) : Prop :=
  b.totalRevenue < a.totalRevenue ∨
    (a.totalRevenue = b.totalRevenue ∧ a.product ≤ b.product)

instance : DecidableRel tpLe := fun a b => by
  unfold tpLe; infer_instance

instance : IsTotal TopProductEntry tpLe :=
  ⟨fun a b => by
    unfold tpLe
    rcases lt_trichotomy a.totalRevenue b.totalRevenue with h | h | h
    · exact Or.inr (Or.inl h)
    · rcases le_total a.product b.product with hc | hc
      · exact Or.inl (Or.inr ⟨h, hc⟩)
      · exact Or.inr (Or.inr ⟨h.symm, hc⟩)
    · exact Or.inl (Or.inl h)⟩

instance : IsTrans TopProductEntry tpLe :=
  ⟨fun a b c hab hbc => by
    unfold tpLe at hab hbc ⊢
    rcases hab with h1 | ⟨h1, h1c⟩ <;> rcases hbc with h2 | ⟨h2, h2c⟩
    · exact Or.inl (lt_trans h2 h1)
    · exact Or.inl (h2 ▸ h1)
    · exact Or.inl (by rw [h1]; exact h2)
    · exact Or.inr ⟨h1.trans h2, le_trans h1c h2c⟩⟩

/-- Comparator for top-region rows: descending by `totalRevenue`, ties
broken by region name ascending (spec §4.1). -/
def trLe (a b : TopRegionEntry) : Prop :=
  b.totalRevenue < a.totalRevenue ∨
    (a.totalRevenue = b.totalRevenue ∧ a.region ≤ b.region)

instance : DecidableRel trLe := fun a b => by
  unfold trLe; infer_instance

/-- Distinct products occurring in the data, first occurrences kept. -/
def products (ts : List Transaction) : List String :=
  (ts.map (fun t => t.product)).dedup

/-- Distinct regions occurring in the data, first occurrences kept. -/
def regions (ts : List Transaction) : List String :=
  (ts.map (fun t => t.region)).dedup

/-- Modelled from the spec: one top-product row, `totalRevenue =
sum(amount)` and `totalQuantity = sum(quantity)` over the product group. -/
def mkProductEntry (ts : List Transaction) (p : String) : TopProductEntry :=
  { product := p
    totalRevenue := revenueWhere (fun t => t.product == p) ts
    totalQuantity := quantityWhere (fun t => t.product == p) ts }

/-- Modelled from the spec: one top-region row, `totalRevenue =
sum(amount)` and `transactionCount = count` over the region group. -/
def mkRegionEntry (ts : List Transaction) (r : String) : TopRegionEntry :=
  { region := r
    totalRevenue := revenueWhere (fun t => t.region == r) ts
    transactionCount := countWhere (fun t => t.region == r) ts }

/-- All product rows, ranked by the `tpLe` comparator, before truncation. -/
def rankedProducts (ts : List Transaction) : List TopProductEntry :=
  List.insertionSort tpLe ((products ts).map (mkProductEntry ts))

/-- All region rows, ranked by the `trLe` comparator, before truncation. -/
def rankedRegions (ts : List Transaction) : List TopRegionEntry :=
  List.insertionSort trLe ((regions ts).map (mkRegionEntry ts))

/-- Modelled from the spec: `TopProducts(limit)` — fails with
`InvalidArgument` when `limit <= 0`, otherwise ranks products and
truncates to the first `limit` entries. -/
def topProducts (limit : Int) (ts : List Transaction) :
    Except AggError (List TopProductEntry) :=
  if limit ≤ 0 then Except.error AggError.invalidArgument
  else Except.ok ((rankedProducts ts).take limit.toNat)

/-- Modelled from the spec: `TopRegions(limit)` — same contract as
`TopProducts`, grouped by region instead. -/
def topRegions (limit : Int) (ts : List Transaction) :
    Except AggError (List TopRegionEntry) :=
  if limit ≤ 0 then Except.error AggError.invalidArgument
  else Except.ok ((rankedRegions ts).take limit.toNat)

/-- Chronological (non-strict) order on monthly rows: lexicographic on
`(year, month)`. -/
def msLe (a b : MonthlySalesEntry) : Prop :=
  a.year < b.year ∨ (a.year = b.year ∧ a.month ≤ b.month)

/-- Strict chronological order on monthly rows. -/
def msLt (a b : MonthlySalesEntry) : Prop :=
  a.year < b.year ∨ (a.year = b.year ∧ a.month < b.month)

instance : DecidableRel msLe := fun a b => by
  unfold msLe; infer_instance

instance : DecidableRel msLt := fun a b => by
  unfold msLt; infer_instance

instance : IsTotal MonthlySalesEntry msLe :=
  ⟨fun a b => by
    unfold msLe
    rcases lt_trichotomy a.year b.year with h | h | h
    · exact Or.inl (Or.inl h)
    · rcases le_total a.month b.month with hc | hc
      · exact Or.inl (Or.inr ⟨h, hc⟩)
      · exact Or.inr (Or.inr ⟨h.symm, hc⟩)
    · exact Or.inr (Or.inl h)⟩

instance : IsTrans MonthlySalesEntry msLe :=
  ⟨fun a b c hab hbc => by
    unfold msLe at hab hbc ⊢
    rcases hab with h1 | ⟨h1, h1c⟩ <;> rcases hbc with h2 | ⟨h2, h2c⟩
    · exact Or.inl (lt_trans h1 h2)
    · exact Or.inl (by rw [← h2]; exact h1)
    · exact Or.inl (by rw [h1]; exact h2)
    · exact Or.inr ⟨h1.trans h2, le_trans h1c h2c⟩⟩

/-- Distinct `(year, month)` keys occurring in the data. -/
def monthKeys (ts : List Transaction) : List (Nat × Nat) :=
  (ts.map (fun t => (t.year, t.month))).dedup

/-- Modelled from the spec: one monthly-sales row for the bucket `k`. -/
def mkMonthEntry (ts : List Transaction) (k : Nat × Nat) : MonthlySalesEntry :=
  { year := k.1
    month := k.2
    totalRevenue := revenueWhere (fun t => t.year == k.1 && t.month == k.2) ts
    transactionCount := countWhere (fun t => t.year == k.1 && t.month == k.2) ts }

/-- Modelled from the spec: restriction of the data to the optional
`year` filter of `MonthlySales`. -/
def filterYear (yOpt : Option Nat) (ts : List Transaction) : List Transaction :=
  match yOpt with
  | some y => ts.filter (fun t => t.year == y)
  | none => ts

/-- Month buckets of a transaction set, sorted chronologically. -/
def monthlyOf (ts : List Transaction) : List MonthlySalesEntry :=
  List.insertionSort msLe ((monthKeys ts).map (mkMonthEntry ts))

/-- Modelled from the spec: `MonthlySales(year)` — bucket the (optionally
year-filtered) transactions by `(year, month)` and sort chronologically;
absent months are not synthesized. -/
def monthlySales (yOpt : Option Nat) (ts : List Transaction) :
    List MonthlySalesEntry :=
  monthlyOf (filterYear yOpt ts)

/-- Modelled from the spec: the engine keeps an optional store reference;
`none` is the demo/fallback mode used when the database connection fails
at startup. -/
abbrev Engine := Option (List Transaction)

/-- Modelled from the spec: engine `CountryRevenue()`; a storeless engine
short-circuits to an empty result (spec §4.2). -/
def engineCountryRevenue (e : Engine) :
    Except AggError (List CountryRevenueEntry) :=
  match e with
  | none => Except.ok []
  | some ts => Except.ok (countryRevenue ts)

/-- Modelled from the spec: engine `TopProducts(limit)`; a storeless
engine short-circuits to an empty result (spec §4.2). -/
def engineTopProducts (e : Engine) (limit : Int) :
    Except AggError (List TopProductEntry) :=
  match e with
  | none => Except.ok []
  | some ts => topProducts limit ts

/-- Modelled from the spec: engine `TopRegions(limit)`; a storeless
engine short-circuits to an empty result (spec §4.2). -/
def engineTopRegions (e : Engine) (limit : Int) :
    Except AggError (List TopRegionEntry) :=
  match e with
  | none => Except.ok []
  | some ts => topRegions limit ts

/-- Modelled from the spec: engine `MonthlySales(year)`; a storeless
engine short-circuits to an empty result (spec §4.2). -/
def engineMonthlySales (e : Engine) (yOpt : Option Nat) :
    Except AggError (List MonthlySalesEntry) :=
  match e with
  | none => Except.ok []
  | some ts => Except.ok (monthlySales yOpt ts)

/-- Modelled from the spec: the handler layer defaults an omitted `limit`
query parameter to 5 (spec §4.1). -/
def limitOrDefault (l : Option Int) : Int := l.getD 5

/-- Modelled from the spec: `TopProducts` as called by the handler layer,
with the optional `limit` parameter. -/
def engineTopProductsOpt (e : Engine) (l : Option Int) :
    Except AggError (List TopProductEntry) :=
  engineTopProducts e (limitOrDefault l)

/-- Handlers registered by `setupRouter` in `main.go`. -/
inductive Handler where
  | swaggerDocs
  | healthCheck
  | getCountryRevenue
  | getTopProducts
  | getMonthlySales
  | getTopRegions
deriving DecidableEq

/-- The four aggregation operations of the engine. -/
inductive EngineOp where
  | opCountryRevenue
  | opTopProducts
  | opMonthlySales
  | opTopRegions
deriving DecidableEq

/-- One route registration: HTTP method, path, handler. -/
structure Route where
  method : String
  path : String
  handler : Handler
deriving DecidableEq

/-- The routes registered by `setupRouter` in
`src/backend/cmd/api/main.go`, in registration order: the swagger docs
route, then `/api/v1/health`, then the four analytics routes. -/
def setupRouter : List Route :=
  [ { method := "GET", path := "/swagger/*any", handler := Handler.swaggerDocs }
  , { method := "GET", path := "/api/v1/health", handler := Handler.healthCheck }
  , { method := "GET", path := "/api/v1/analytics/country-revenue",
      handler := Handler.getCountryRevenue }
  , { method := "GET", path := "/api/v1/analytics/top-products",
      handler := Handler.getTopProducts }
  , { method := "GET", path := "/api/v1/analytics/monthly-sales",
      handler := Handler.getMonthlySales }
  , { method := "GET", path := "/api/v1/analytics/top-regions",
      handler := Handler.getTopRegions } ]

/-- Modelled from the spec: which engine operation each controller handler
invokes (the `internal/controllers` package is not in the source tree);
the health check and the swagger docs call no engine operation. -/
def handlerEngineCall : Handler → Option EngineOp
  | Handler.swaggerDocs => none
  | Handler.healthCheck => none
  | Handler.getCountryRevenue => some EngineOp.opCountryRevenue
  | Handler.getTopProducts => some EngineOp.opTopProducts
  | Handler.getMonthlySales => some EngineOp.opMonthlySales
  | Handler.getTopRegions => some EngineOp.opTopRegions

/-- From `seedData` in `src/backend/cmd/api/main.go`: if the store already
holds at least one record, seeding is skipped; otherwise the seeder's
records are inserted.  The concrete `services.NewDataSeeder` output is
abstracted as the list `seeder` it would insert. -/
def seedData (seeder : List Transaction) (store : List Transaction) :
    List Transaction :=
  if store.length > 0 then store else store ++ seeder

/-- Observable startup events of `main` in
`src/backend/cmd/api/main.go`. -/
inductive Event where
  | connectAttempt
  | migrateAttempt
  | migrateWarn
  | seedRun
  | seedWarn
  | demoWarn
  | listen
deriving DecidableEq

/-- Which controller `main` constructs: the demo one (nil service) or the
real store-backed one. -/
inductive ControllerKind where
  | demo
  | real
deriving DecidableEq

/-- From `main` in `src/backend/cmd/api/main.go`: the sequential startup
trace and the controller that is constructed.  `connectOk` is whether
`connectDatabase` succeeds, `migrateOk` whether `AutoMigrate` succeeds,
`seedOk` whether `seedData` succeeds; migration and seeding failures are
only logged as warnings, and `ListenAndServe` runs last in every path. -/
def mainRun (connectOk migrateOk seedOk : Bool) :
    List Event × ControllerKind :=
  if connectOk then
    ( [Event.connectAttempt, Event.migrateAttempt]
        ++ (if migrateOk then [] else [Event.migrateWarn])
        ++ [Event.seedRun]
        ++ (if seedOk then [] else [Event.seedWarn])
        ++ [Event.listen]
    , ControllerKind.real )
  else
    ([Event.connectAttempt, Event.demoWarn, Event.listen], ControllerKind.demo)

/-- Modelled from the spec: the bound, in seconds, on any store access
("a few seconds", spec §5); the store-access code (`internal/repository`)
is not in the source tree. -/
def storeAccessTimeoutSeconds : Nat := 3

/-- Modelled from the spec: a store access that takes `elapsed` seconds
either completes within the bound or is converted into
`StoreUnavailable` instead of blocking indefinitely (spec §5). -/
def accessStore (elapsed : Nat) (data : List Transaction) :
    Except AggError (List Transaction) :=
  if storeAccessTimeoutSeconds < elapsed then
    Except.error AggError.storeUnavailable
  else Except.ok data

/-- Three concrete transactions, the worked example of spec §8. -/
def txUSWest : Transaction :=
  { id := 1, country := "US", region := "West", product := "Widget"
  , amount := 10000, quantity := 2, year := 2024, month := 1 }

def txUSEast : Transaction :=
  { id := 2, country := "US", region := "East", product := "Widget"
  , amount := 5000, quantity := 1, year := 2024, month := 2 }

def txCAWest : Transaction :=
  { id := 3, country := "CA", region := "West", product := "Gadget"
  , amount := 20000, quantity := 3, year := 2023, month := 12 }

def sampleTs : List Transaction := [txUSWest, txUSEast, txCAWest]

/-- Demo/fallback mode behaviour: a failed connection yields the demo
controller yet the server still listens, and every engine operation on a
storeless engine returns an empty `ok` result. -/
def DemoModeSpec (limit : Int) (yOpt : Option Nat) (m s : Bool) : Prop :=
  (mainRun false m s).2 = ControllerKind.demo ∧
  Event.listen ∈ (mainRun false m s).1 ∧
  engineCountryRevenue none = Except.ok [] ∧
  engineTopProducts none limit = Except.ok [] ∧
  engineMonthlySales none yOpt = Except.ok [] ∧
  engineTopRegions none limit = Except.ok []

/-- Argument-validation contract of `TopProducts`: `InvalidArgument`
exactly when `limit ≤ 0`, default limit 5 when omitted, and an invalid
limit yields the same answer whatever the store holds. -/
def TopProductsArgSpec (ts : List Transaction) (limit : Int) : Prop :=
  (topProducts limit ts = Except.error AggError.invalidArgument ↔ limit ≤ 0) ∧
  topProducts 0 ts = Except.error AggError.invalidArgument ∧
  topProducts (-1) ts = Except.error AggError.invalidArgument ∧
  engineTopProductsOpt (some ts) none = engineTopProducts (some ts) 5 ∧
  (∀ ts2 : List Transaction, limit ≤ 0 →
    topProducts limit ts = topProducts limit ts2)

/-- Seeding contract: a non-empty store is left unchanged, an empty store
receives exactly the seeder's records. -/
def SeedSpec (seeder store : List Transaction) : Prop :=
  (store ≠ [] → seedData seeder store = store) ∧
  (store = [] → seedData seeder store = seeder)

/-- Router contract as the code realises it: six GET routes — the five
API endpoints of the interface table, dispatching to their engine
operations, plus the swagger documentation route. -/
def RouterSpec : Prop :=
  (∀ r ∈ setupRouter, r.method = "GET") ∧
  Route.mk "GET" "/api/v1/health" Handler.healthCheck ∈ setupRouter ∧
  Route.mk "GET" "/api/v1/analytics/country-revenue"
    Handler.getCountryRevenue ∈ setupRouter ∧
  Route.mk "GET" "/api/v1/analytics/top-products"
    Handler.getTopProducts ∈ setupRouter ∧
  Route.mk "GET" "/api/v1/analytics/monthly-sales"
    Handler.getMonthlySales ∈ setupRouter ∧
  Route.mk "GET" "/api/v1/analytics/top-regions"
    Handler.getTopRegions ∈ setupRouter ∧
  Route.mk "GET" "/swagger/*any" Handler.swaggerDocs ∈ setupRouter ∧
  setupRouter.length = 6 ∧
  handlerEngineCall Handler.healthCheck = none ∧
  handlerEngineCall Handler.getCountryRevenue = some EngineOp.opCountryRevenue ∧
  handlerEngineCall Handler.getTopProducts = some EngineOp.opTopProducts ∧
  handlerEngineCall Handler.getMonthlySales = some EngineOp.opMonthlySales ∧
  handlerEngineCall Handler.getTopRegions = some EngineOp.opTopRegions

/-- Seeding happens at most once in a startup trace, and strictly before
the server starts listening. -/
def SeedBeforeListen (tr : List Event) : Prop :=
  tr.count Event.seedRun ≤ 1 ∧
  ∀ i j : Fin tr.length, tr.get i = Event.seedRun → tr.get j = Event.listen →
    (i : Nat) < (j : Nat)

/-- After a successful connection, migration or seeding failures are only
warnings: the real controller is still constructed and the server
listens. -/
def WarnAndContinue (m s : Bool) : Prop :=
  (mainRun true m s).2 = ControllerKind.real ∧
  Event.listen ∈ (mainRun true m s).1 ∧
  (m = false → Event.migrateWarn ∈ (mainRun true m s).1) ∧
  (s = false → Event.seedWarn ∈ (mainRun true m s).1) ∧
  Event.seedRun ∈ (mainRun true m s).1

/-- Store accesses carry a positive bound of a few seconds and convert a
timeout into `StoreUnavailable`; within the bound they complete. -/
def StoreTimeoutSpec (elapsed : Nat) (data : List Transaction) : Prop :=
  0 < storeAccessTimeoutSeconds ∧ storeAccessTimeoutSeconds ≤ 5 ∧
  (storeAccessTimeoutSeconds < elapsed →
    accessStore elapsed data = Except.error AggError.storeUnavailable) ∧
  (elapsed ≤ storeAccessTimeoutSeconds →
    accessStore elapsed data = Except.ok data)

/-- C1: when the store is unreachable at startup the system is built with
an absent store and keeps serving, and every aggregation operation of a
storeless engine returns an empty sequence and never an error. -/
theorem demo_mode_empty_results (limit : Int) (yOpt : Option Nat)
    (m s : Bool) : DemoModeSpec limit yOpt m s := by
  unfold DemoModeSpec
  refine ⟨rfl, ?_, rfl, rfl, rfl, rfl⟩
  simp [mainRun]

/-- C1 witness at concrete arguments. -/
theorem demo_mode_empty_results_witness : DemoModeSpec 7 (some 2024) true false :=
  demo_mode_empty_results 7 (some 2024) true false

/-- C3: `TopProducts` fails with `InvalidArgument` exactly when
`limit ≤ 0` (in particular at 0 and -1), an omitted limit defaults to 5,
and argument errors do not depend on the store's contents. -/
theorem topProducts_invalid_argument (ts : List Transaction) (limit : Int) :
    TopProductsArgSpec ts limit := by
  unfold TopProductsArgSpec
  refine ⟨⟨?_, ?_⟩, ?_, ?_, rfl, ?_⟩
  · intro h
    by_contra hle
    simp [topProducts, hle] at h
  · intro h
    simp [topProducts, h]
  · simp [topProducts]
  · norm_num [topProducts]
  · intro ts2 h
    simp [topProducts, h]

/-- C3 witness at concrete arguments. -/
theorem topProducts_invalid_argument_witness : TopProductsArgSpec sampleTs 0 :=
  topProducts_invalid_argument sampleTs 0

/-- C6: seeding populates the store only when it is empty; a store with at
least one record is returned unchanged. -/
theorem seedData_only_when_empty (seeder store : List Transaction) :
    SeedSpec seeder store := by
  unfold SeedSpec
  cases store with
  | nil =>
    exact ⟨fun h => absurd rfl h, fun _ => by simp [seedData]⟩
  | cons a l =>
    exact ⟨fun _ => by simp [seedData], fun h => by cases h⟩

/-- C6 witness at concrete arguments. -/
theorem seedData_only_when_empty_witness :
    SeedSpec sampleTs [txUSWest] ∧ SeedSpec sampleTs [] :=
  ⟨seedData_only_when_empty sampleTs [txUSWest],
   seedData_only_when_empty sampleTs []⟩

/-- C7 counterexample: the router does not register exactly the five GET
endpoints of the interface table — it also registers a sixth GET route,
`/swagger/*any`, whose path is none of the five. -/
theorem setupRouter_has_sixth_get_route :
    Route.mk "GET" "/swagger/*any" Handler.swaggerDocs ∈ setupRouter ∧
    (setupRouter.filter (fun r => r.method == "GET")).length = 6 ∧
    "/swagger/*any" ∉
      [ "/api/v1/health", "/api/v1/analytics/country-revenue",
        "/api/v1/analytics/top-products", "/api/v1/analytics/monthly-sales",
        "/api/v1/analytics/top-regions" ] := by
  decide

/-- C7 amended: the router registers the five GET endpoints of the
interface table, each dispatching to its engine operation (health and
swagger to none), plus exactly one extra GET route for the swagger
documentation. -/
theorem setupRouter_routes : RouterSpec := by
  unfold RouterSpec
  decide

/-- C8: in every startup path, seeding runs at most once and strictly
before the server begins listening. -/
theorem seed_before_listen (c m s : Bool) :
    SeedBeforeListen (mainRun c m s).1 := by
  cases c <;> cases m <;> cases s <;>
    (unfold SeedBeforeListen mainRun; decide)

/-- C8 witness at concrete arguments. -/
theorem seed_before_listen_witness : SeedBeforeListen (mainRun true false false).1 :=
  seed_before_listen true false false

/-- C9: every store access carries a positive bound of a few seconds; an
access exceeding the bound is converted into `StoreUnavailable`, one
within the bound completes normally. -/
theorem store_access_bounded_timeout (elapsed : Nat)
    (data : List Transaction) : StoreTimeoutSpec elapsed data := by
  unfold StoreTimeoutSpec
  refine ⟨by decide, by decide, fun h => ?_, fun h => ?_⟩
  · simp [accessStore, h]
  · have h2 : ¬ storeAccessTimeoutSeconds < elapsed := by omega
    simp [accessStore, h2]

/-- C9 witness at concrete arguments. -/
theorem store_access_bounded_timeout_witness :
    StoreTimeoutSpec 10 sampleTs ∧ StoreTimeoutSpec 2 sampleTs :=
  ⟨store_access_bounded_timeout 10 sampleTs,
   store_access_bounded_timeout 2 sampleTs⟩

/-- C10: when the connection succeeds but migration or seeding fails,
startup still constructs the real controller, the failure is only a
warning, and the server listens. -/
theorem migrate_seed_failures_nonfatal (m s : Bool) : WarnAndContinue m s := by
  cases m <;> cases s <;> (unfold WarnAndContinue mainRun; decide)

/-- C10 witness at concrete arguments. -/
theorem migrate_seed_failures_nonfatal_witness : WarnAndContinue false false :=
  migrate_seed_failures_nonfatal false false

/-- Full contract of `CountryRevenue()`: one entry per distinct country,
exact sums and counts per group, and the output sorted descending by
revenue with country-name tie break. -/
def CountryRevenueOk (ts : List Transaction) : Prop :=
  ((countryRevenue ts).map (fun e => e.country)).Nodup ∧
  (∀ c : String,
    (∃ e ∈ countryRevenue ts, e.country = c) ↔ ∃ t ∈ ts, t.country = c) ∧
  (∀ e ∈ countryRevenue ts,
    e.totalRevenue = revenueWhere (fun t => t.country == e.country) ts ∧
    e.transactionCount = countWhere (fun t => t.country == e.country) ts) ∧
  List.Sorted crLe (countryRevenue ts)

/-- C2: for every non-empty transaction set, `CountryRevenue()` has
exactly one entry per distinct country, carrying the exact revenue sum
and transaction count of that country's group, sorted non-increasing by
revenue with ties broken by country name ascending. -/
theorem countryRevenue_groups_and_sorts (ts : List Transaction)
    (_hne : ts ≠ []) : CountryRevenueOk ts := by
  unfold CountryRevenueOk
  refine ⟨?_, ?_, ?_, ?_⟩
  · exact (countryRevenue_countries_perm ts).nodup_iff.mpr
      (List.nodup_dedup _)
  · intro c
    constructor
    · rintro ⟨e, he, rfl⟩
      have h1 : e.country ∈ (countryRevenue ts).map (fun e => e.country) :=
        List.mem_map_of_mem _ he
      have h2 : e.country ∈ countries ts :=
        (countryRevenue_countries_perm ts).mem_iff.mp h1
      have h3 : e.country ∈ ts.map (fun t => t.country) :=
        List.mem_dedup.mp h2
      rcases List.mem_map.mp h3 with ⟨t, ht, hc⟩
      exact ⟨t, ht, hc⟩
    · rintro ⟨t, ht, rfl⟩
      have h2 : t.country ∈ countries ts :=
        List.mem_dedup.mpr (List.mem_map_of_mem _ ht)
      have h3 : t.country ∈ (countryRevenue ts).map (fun e => e.country) :=
        (countryRevenue_countries_perm ts).mem_iff.mpr h2
      rcases List.mem_map.mp h3 with ⟨e, he, hc⟩
      exact ⟨e, he, hc⟩
  · intro e he
    rcases countryRevenue_entries ts e he with ⟨c, hc, rfl⟩
    exact ⟨rfl, rfl⟩
  · unfold countryRevenue
    exact List.sorted_insertionSort crLe _

/-- C2 witness at the spec §8 worked example. -/
theorem countryRevenue_groups_and_sorts_witness :
    sampleTs ≠ [] ∧ CountryRevenueOk sampleTs :=
  ⟨by decide, countryRevenue_groups_and_sorts sampleTs (by decide)⟩

/-- Limit contract of `TopProducts`: for a positive limit the call
succeeds, returns at most `limit` entries sorted non-increasing by
revenue, and is a prefix of the call with `limit + 1`. -/
def TopProductsLimitSpec (ts : List Transaction) (limit : Int) : Prop :=
  ∃ l1 l2 : List TopProductEntry,
    topProducts limit ts = Except.ok l1 ∧
    topProducts (limit + 1) ts = Except.ok l2 ∧
    l1.length ≤ limit.toNat ∧
    List.Pairwise (fun a b => b.totalRevenue ≤ a.totalRevenue) l1 ∧
    l1 <+: l2

/-- C5: for every `limit > 0`, `TopProducts(limit)` returns at most
`limit` entries, sorted non-increasing by `totalRevenue`, and the result
is a prefix of `TopProducts(limit + 1)` on the same data. -/
theorem topProducts_limit_monotone (ts : List Transaction) (limit : Int)
    (h : 0 < limit) : TopProductsLimitSpec ts limit := by
  unfold TopProductsLimitSpec
  have h1 : ¬ limit ≤ 0 := by omega
  have h2 : ¬ limit + 1 ≤ 0 := by omega
  refine ⟨(rankedProducts ts).take limit.toNat,
          (rankedProducts ts).take (limit + 1).toNat,
          by simp [topProducts, h1], by simp [topProducts, h2], ?_, ?_, ?_⟩
  · rw [List.length_take]
    exact Nat.min_le_left _ _
  · have hs : List.Pairwise tpLe (rankedProducts ts) := by
      unfold rankedProducts
      exact List.sorted_insertionSort tpLe _
    have hsub : List.Sublist ((rankedProducts ts).take limit.toNat)
        (rankedProducts ts) :=
      List.take_sublist _ _
    refine (hs.sublist hsub).imp ?_
    intro a b hab
    rcases hab with hlt | ⟨heq, _⟩
    · exact le_of_lt hlt
    · exact le_of_eq heq.symm
  · have h3 : (limit + 1).toNat = limit.toNat + 1 := by omega
    rw [h3]
    exact List.take_prefix_take_left _ (Nat.le_succ _)

/-- C5 witness at concrete arguments. -/
theorem topProducts_limit_monotone_witness :
    (0 : Int) < 1 ∧ TopProductsLimitSpec sampleTs 1 :=
  ⟨by decide, topProducts_limit_monotone sampleTs 1 (by decide)⟩

theorem map_key_mkMonthEntry (ts : List Transaction) (l : List (Nat × Nat)) :
    (l.map (mkMonthEntry ts)).map (fun e => (e.year, e.month)) = l := by
  induction l with
  | nil => rfl
  | cons a l ih => simp [mkMonthEntry, ih]

theorem monthlyOf_keys_perm (ts : List Transaction) :
    List.Perm ((monthlyOf ts).map (fun e => (e.year, e.month)))
      (monthKeys ts) := by
  unfold monthlyOf
  have h := (List.perm_insertionSort msLe
      ((monthKeys ts).map (mkMonthEntry ts))).map (fun e => (e.year, e.month))
  rwa [map_key_mkMonthEntry] at h

theorem monthlyOf_entries (ts : List Transaction) :
    ∀ e ∈ monthlyOf ts, ∃ k ∈ monthKeys ts, e = mkMonthEntry ts k := by
  intro e he
  unfold monthlyOf at he
  have h1 : e ∈ (monthKeys ts).map (mkMonthEntry ts) :=
    ((List.perm_insertionSort msLe _).mem_iff).mp he
  rcases List.mem_map.mp h1 with ⟨k, hk, rfl⟩
  exact ⟨k, hk, rfl⟩

theorem monthlyOf_keys_nodup (ts : List Transaction) :
    ((monthlyOf ts).map (fun e => (e.year, e.month))).Nodup :=
  (monthlyOf_keys_perm ts).nodup_iff.mpr (List.nodup_dedup _)

theorem monthlyOf_sorted_strict (ts : List Transaction) :
    List.Sorted msLt (monthlyOf ts) := by
  have hle : List.Sorted msLe (monthlyOf ts) := by
    unfold monthlyOf
    exact List.sorted_insertionSort msLe _
  have hnd : ((monthlyOf ts).map (fun e => (e.year, e.month))).Nodup :=
    monthlyOf_keys_nodup ts
  have hne : List.Pairwise
      (fun a b : MonthlySalesEntry => (a.year, a.month) ≠ (b.year, b.month))
      (monthlyOf ts) := (List.pairwise_map).mp hnd
  refine (List.Pairwise.and hle hne).imp ?_
  rintro a b ⟨hab, hne2⟩
  unfold msLe at hab
  unfold msLt
  rcases hab with h | ⟨h, hm⟩
  · exact Or.inl h
  · refine Or.inr ⟨h, ?_⟩
    rcases Nat.lt_or_ge a.month b.month with h2 | h2
    · exact h2
    · exfalso
      apply hne2
      have hm2 : a.month = b.month := le_antisymm hm h2
      rw [h, hm2]

theorem monthlyOf_covers (ts : List Transaction) :
    ∀ t ∈ ts, ∃ e ∈ monthlyOf ts, e.year = t.year ∧ e.month = t.month := by
  intro t ht
  have hk : (t.year, t.month) ∈ monthKeys ts :=
    List.mem_dedup.mpr (List.mem_map_of_mem _ ht)
  have h2 : mkMonthEntry ts (t.year, t.month) ∈
      (monthKeys ts).map (mkMonthEntry ts) :=
    List.mem_map_of_mem _ hk
  have h3 : mkMonthEntry ts (t.year, t.month) ∈ monthlyOf ts := by
    unfold monthlyOf
    exact ((List.perm_insertionSort msLe _).mem_iff).mpr h2
  exact ⟨_, h3, rfl, rfl⟩

theorem monthlyOf_no_synthesized (ts : List Transaction) :
    ∀ e ∈ monthlyOf ts, ∃ t ∈ ts, t.year = e.year ∧ t.month = e.month := by
  intro e he
  rcases monthlyOf_entries ts e he with ⟨k, hk, rfl⟩
  have h1 : k ∈ ts.map (fun t => (t.year, t.month)) := List.mem_dedup.mp hk
  rcases List.mem_map.mp h1 with ⟨t, ht, hkey⟩
  refine ⟨t, ht, ?_, ?_⟩
  · show t.year = k.1
    rw [← hkey]
  · show t.month = k.2
    rw [← hkey]

theorem monthlyOf_buckets_unique (ts : List Transaction) :
    ∀ e1 ∈ monthlyOf ts, ∀ e2 ∈ monthlyOf ts,
      e1.year = e2.year → e1.month = e2.month → e1 = e2 := by
  intro e1 h1 e2 h2 hy hm
  refine List.inj_on_of_nodup_map (monthlyOf_keys_nodup ts) h1 h2 ?_
  rw [hy, hm]

/-- Full contract of `MonthlySales(year)`: exact per-bucket sums and
counts over the (optionally year-filtered) data, every transaction in
scope lands in a bucket with its `(year, month)` key and buckets with
equal keys coincide, no bucket is synthesized for an absent month, the
year filter restricts the output to that year, and the output is strictly
chronologically ascending with no duplicate keys. -/
def MonthlySalesSpec (yOpt : Option Nat) (ts : List Transaction) : Prop :=
  (∀ e ∈ monthlySales yOpt ts,
    e.totalRevenue =
      revenueWhere (fun t => t.year == e.year && t.month == e.month)
        (filterYear yOpt ts) ∧
    e.transactionCount =
      countWhere (fun t => t.year == e.year && t.month == e.month)
        (filterYear yOpt ts)) ∧
  (∀ t ∈ filterYear yOpt ts, ∃ e ∈ monthlySales yOpt ts,
    e.year = t.year ∧ e.month = t.month) ∧
  (∀ e ∈ monthlySales yOpt ts, ∃ t ∈ filterYear yOpt ts,
    t.year = e.year ∧ t.month = e.month) ∧
  (∀ y, yOpt = some y → ∀ e ∈ monthlySales yOpt ts, e.year = y) ∧
  filterYear none ts = ts ∧
  List.Sorted msLt (monthlySales yOpt ts) ∧
  ((monthlySales yOpt ts).map (fun e => (e.year, e.month))).Nodup ∧
  (∀ e1 ∈ monthlySales yOpt ts, ∀ e2 ∈ monthlySales yOpt ts,
    e1.year = e2.year → e1.month = e2.month → e1 = e2)

/-- C4: `MonthlySales` buckets strictly by `(year, month)` — any two
transactions in the same calendar month share a bucket — the output is
strictly chronologically ascending with no duplicate keys; a year filter
keeps only that year's months, no filter keeps all months present in the
data, and absent months are never synthesized. -/
theorem monthlySales_buckets (yOpt : Option Nat) (ts : List Transaction) :
    MonthlySalesSpec yOpt ts := by
  unfold MonthlySalesSpec
  refine ⟨?_, ?_, ?_, ?_, rfl, ?_, ?_, ?_⟩
  · intro e he
    rcases monthlyOf_entries _ e he with ⟨k, hk, rfl⟩
    exact ⟨rfl, rfl⟩
  · exact monthlyOf_covers _
  · exact monthlyOf_no_synthesized _
  · rintro y rfl
    intro e he
    rcases monthlyOf_entries _ e he with ⟨k, hk, rfl⟩
    have h1 : k ∈ (filterYear (some y) ts).map (fun t => (t.year, t.month)) :=
      List.mem_dedup.mp hk
    rcases List.mem_map.mp h1 with ⟨t, ht, hkey⟩
    have ht2 : t ∈ ts.filter (fun t => t.year == y) := ht
    have h2 : t.year = y := by
      simpa using (List.mem_filter.mp ht2).2
    show k.1 = y
    rw [← hkey]
    exact h2
  · exact monthlyOf_sorted_strict _
  · exact monthlyOf_keys_nodup _
  · exact monthlyOf_buckets_unique _

/-- C4 witness at concrete arguments. -/
theorem monthlySales_buckets_witness :
    MonthlySalesSpec (some 2024) sampleTs ∧ MonthlySalesSpec none sampleTs :=
  ⟨monthlySales_buckets (some 2024) sampleTs,
   monthlySales_buckets none sampleTs⟩

end ABT
